import Mathlib

/-!
Verification development for the Marketplace Listing Generator.

The definitions below are a shallow embedding of the TypeScript sources:
src/types.ts, src/services/geminiService.ts, src/store.ts, src/App.tsx,
src/components/Header.tsx (export helpers), src/components/ListingPreview.tsx
and src/components/EditListingModal. Machine-level JavaScript behaviour that
matters to the claims (string truthiness, object spreads, JSON field
presence) is modelled explicitly; network and DOM effects are modelled by
passing the observable outcome of the single provider call as data.
-/

/-! ## Data model (src/types.ts, newest revision embedded in Header.tsx) -/

/-- The four target marketplaces (enum Platform in src/types.ts). -/
inductive Platform where
  | Ebay
  | Facebook
  | Craigslist
  | X
deriving DecidableEq

/-- The string value carried by each Platform enum member in the source. -/
def Platform.str : Platform → String
  | .Ebay => "Ebay"
  | .Facebook => "Facebook"
  | .Craigslist => "Craigslist"
  | .X => "X"

/-- ImageFile from src/types.ts: base64 payload, media type, display name. -/
structure ImageFile where
  base64 : String
  mimeType : String
  name : String
deriving DecidableEq

/-- The confidence enum of a price analysis ('High' | 'Medium' | 'Low'). -/
inductive Confidence where
  | High
  | Medium
  | Low
deriving DecidableEq

/-- String value of a confidence level as it appears in JSON. -/
def Confidence.str : Confidence → String
  | .High => "High"
  | .Medium => "Medium"
  | .Low => "Low"

/-- One bin of the optional price distribution histogram. -/
structure PriceDistributionBin where
  range : String
  count : Nat
deriving DecidableEq

/-- PriceAnalysis from src/types.ts; the last three fields are optional in
the TypeScript interface, so they are Options here. -/
structure PriceAnalysis where
  range : String
  analysis : String
  confidence : Confidence
  comparableListingsCount : Option Nat
  averageListingAgeDays : Option Nat
  priceDistribution : Option (List PriceDistributionBin)
deriving DecidableEq

/-- The suggestedPrice field of a persisted listing: either the legacy bare
string shape or the structured PriceAnalysis (HistoryListing in types). -/
inductive SuggestedPrice where
  | legacy (s : String)
  | structured (p : PriceAnalysis)
deriving DecidableEq

/-- The listing block: title, description, optional tags. -/
structure ListingContent where
  title : String
  description : String
  tags : Option (List String)
deriving DecidableEq

/-- HistoryListing: a generated listing as persisted (legacy-tolerant price). -/
structure HistoryListing where
  itemName : String
  suggestedPrice : SuggestedPrice
  listing : ListingContent
deriving DecidableEq

/-- HistoryItem / SavedItem from src/types.ts. customTitle is present only on
saved items, hence an Option. input is flattened into its two fields. -/
structure HistoryItem where
  id : Nat
  platform : Platform
  inputText : String
  inputImage : Option ImageFile
  listingData : HistoryListing
  timestamp : String
  customTitle : Option String
deriving DecidableEq

/-! ## String helpers used by the embedded code -/

/-- Boolean test that pat is a prefix of s (JavaScript String.startsWith). -/
def startsWithChars : List Char → List Char → Bool
  | [], _ => true
  | _ :: _, [] => false
  | a :: as, b :: bs => a == b && startsWithChars as bs

/-- Boolean test that pat occurs as a contiguous substring of s
(JavaScript String.includes). -/
def includesChars (s pat : List Char) : Bool :=
  match s with
  | [] => pat.isEmpty
  | _ :: rest => startsWithChars pat s || includesChars rest pat

/-- errorMessage.includes(pat) on strings. -/
def strIncludes (s pat : String) : Bool :=
  includesChars s.data pat.data

/-- String.toLowerCase restricted to ASCII, via Char.toLower. -/
def toLowerStr (s : String) : String :=
  ⟨s.data.map Char.toLower⟩

/-! ## geminiService.ts: generateListing -/

/-- Error text thrown at src/services/geminiService.ts:121 when the key is
empty (MissingCredential). -/
def missingKeyMsg : String :=
  "Google Gemini API key is missing. Please add it in the Settings panel."

/-- Error text thrown at geminiService.ts:175 when JSON.parse fails. -/
def parseFailMsg : String :=
  "The AI returned an invalid response format. Please try generating the listing again."

/-- Error text thrown at geminiService.ts:179 when the parsed object lacks
listing or listing.title. -/
def badStructureMsg : String :=
  "Invalid JSON structure received from API."

/-- User-facing message for an invalid API key (geminiService.ts:191). -/
def invalidKeyMsg : String :=
  "The provided Gemini API key is not valid. Please check the key in the Settings panel and ensure it\x27s correct."

/-- User-facing message for quota or rate-limit errors (geminiService.ts:194). -/
def quotaMsg : String :=
  "You\x27ve exceeded your API request limit. Please check your Google Cloud account for usage details or try again later."

/-- User-facing message for safety blocks (geminiService.ts:197). -/
def safetyMsg : String :=
  "The request was blocked by the AI\x27s safety filters. Please try rephrasing your description or using a different image."

/-- User-facing message for transport failures (geminiService.ts:200). -/
def networkMsg : String :=
  "A network error occurred. Please check your internet connection and try again."

/-- The generic fallback thrown at geminiService.ts:205 for anything else. -/
def fallbackMsg : String :=
  "Failed to generate the listing. The AI service may be temporarily unavailable. Please try again later."

/-- The shape of the object obtained from JSON.parse on the response text, as
far as the shape check at geminiService.ts:178 inspects it. A missing field
of the JavaScript object is a none. -/
structure ParsedListing where
  title : Option String
  description : Option String
  tags : Option (List String)
deriving DecidableEq

/-- The parsed top-level response object. -/
structure ParsedResponse where
  itemName : Option String
  suggestedPrice : Option PriceAnalysis
  listing : Option ParsedListing
deriving DecidableEq

/-- The test at geminiService.ts:178, with JavaScript truthiness made
explicit: parsedJson.listing must be present and listing.title must be a
non-empty string. -/
def hasValidShape (p : ParsedResponse) : Bool :=
  match p.listing with
  | none => false
  | some l =>
    match l.title with
    | none => false
    | some t => !(t == "")

/-- The observable outcome of the single ai.models.generateContent call:
either the promise rejected with an Error carrying a message, or a response
text was obtained whose JSON.parse result is given (none when parsing
throws). -/
inductive ProviderOutcome where
  | threw (msg : String)
  | responded (parsed : Option ParsedResponse)
deriving DecidableEq

/-- The catch block of generateListing (geminiService.ts:184-205): the
caught message is lowercased and matched against provider-specific
substrings; anything else falls to the generic fallback message. -/
def classifyCatch (msg : String) : String :=
  let m := toLowerStr msg
  if strIncludes m "api key not valid" then invalidKeyMsg
  else if strIncludes m "quota" || strIncludes m "rate limit" then quotaMsg
  else if strIncludes m "safety" then safetyMsg
  else if strIncludes m "fetch" then networkMsg
  else fallbackMsg

/-- generateListing (geminiService.ts:113-206). The first component records
whether the provider call was reached (a network request was issued). The
inner throws at lines 175 and 179 happen inside the try block, so they are
routed through the catch classifier exactly like provider errors. -/
def generateListing (platform : Platform) (text : String) (apiKey : String)
    (image : Option ImageFile) (outcome : ProviderOutcome) :
    Bool × Except String ParsedResponse :=
  if apiKey == "" then
    (false, .error missingKeyMsg)
  else
    (true,
      match outcome with
      | .threw msg => .error (classifyCatch msg)
      | .responded none => .error (classifyCatch parseFailMsg)
      | .responded (some p) =>
        if hasValidShape p then .ok p
        else .error (classifyCatch badStructureMsg))

/-! ## store.ts: history and saved collections -/

/-- addHistoryItem (src/store.ts:120): prepend the new item and keep at most
the first 50 entries, i.e. the JavaScript [item, ...history].slice(0, 50).
The same expression appears in handleGenerate (src/App.tsx:113). -/
def addHistoryItem (item : HistoryItem) (history : List HistoryItem) :
    List HistoryItem :=
  (item :: history).take 50

/-- updateSavedListing (src/store.ts:127-129): replace every entry whose id
matches the updated item. -/
def updateSavedListing (updatedItem : HistoryItem)
    (savedListings : List HistoryItem) : List HistoryItem :=
  savedListings.map (fun item => if item.id == updatedItem.id then updatedItem else item)

/-! ## EditListingModal handleSave (src/unnamed/part_006:31-46) -/

/-- The record written back by the edit dialog: spread of the original item
with customTitle, listing.title and listing.description replaced by the three
form fields; every other field is carried over by the spreads. -/
def editHandleSave (item : HistoryItem)
    (formCustomTitle formTitle formDescription : String) : HistoryItem :=
  { item with
    customTitle := some formCustomTitle
    listingData :=
      { item.listingData with
        listing :=
          { item.listingData.listing with
            title := formTitle
            description := formDescription } } }

/-! ## View-reconciliation state (src/unnamed/part_002, src/App.tsx) -/

/-- The slice of App component state that the view-reconciliation claims are
about: the two active-selection ids, the input fields, and the ephemeral
price-history / generation-complete flags. -/
structure AppViewState where
  activeHistoryId : Option Nat
  activeSavedId : Option Nat
  selectedPlatform : Platform
  textInput : String
  imageFile : Option ImageFile
  isGenerationComplete : Bool
  hasPriceHistory : Bool
deriving DecidableEq

/-- deselectItems (src/unnamed/part_002:151-156): clear both active ids, the
price history and the generation-complete flag. -/
def deselectItems (s : AppViewState) : AppViewState :=
  { s with
    activeHistoryId := none
    activeSavedId := none
    hasPriceHistory := false
    isGenerationComplete := false }

/-- onTextChange (src/unnamed/part_002:160): store the newly typed text,
then deselect any active item. -/
def onTextChange (text : String) (s : AppViewState) : AppViewState :=
  deselectItems { s with textInput := text }

/-- The Composing view state of the spec: no history entry and no saved
entry is the active selection. -/
def isComposing (s : AppViewState) : Bool :=
  s.activeHistoryId.isNone && s.activeSavedId.isNone

/-! ## ListingPreview price normalisation (src/components/ListingPreview.tsx) -/

/-- The fully populated price object the preview works with after merging
with its defaults (all optional statistics resolved). -/
structure FullPriceAnalysis where
  range : String
  analysis : String
  confidence : Confidence
  comparableListingsCount : Nat
  averageListingAgeDays : Nat
  priceDistribution : List PriceDistributionBin
deriving DecidableEq

/-- defaultPriceAnalysis (ListingPreview.tsx:251-258). -/
def defaultPriceAnalysis : FullPriceAnalysis :=
  { range := "N/A"
    analysis := "No pricing analysis available."
    confidence := .Medium
    comparableListingsCount := 0
    averageListingAgeDays := 0
    priceDistribution := [] }

/-- The placeholder analysis text used for legacy bare-string prices. -/
def legacyAnalysisText : String := "Price from older listing format."

/-- priceInfo (ListingPreview.tsx:260-262): a bare string becomes the default
object with its range and a placeholder analysis; a structured object is
spread over the defaults, so absent optional fields fall back to them. -/
def previewPriceInfo (sp : SuggestedPrice) : FullPriceAnalysis :=
  match sp with
  | .legacy s =>
    { defaultPriceAnalysis with range := s, analysis := legacyAnalysisText }
  | .structured p =>
    { range := p.range
      analysis := p.analysis
      confidence := p.confidence
      comparableListingsCount :=
        p.comparableListingsCount.getD defaultPriceAnalysis.comparableListingsCount
      averageListingAgeDays :=
        p.averageListingAgeDays.getD defaultPriceAnalysis.averageListingAgeDays
      priceDistribution :=
        p.priceDistribution.getD defaultPriceAnalysis.priceDistribution }

/-- The structured object that the spec says a legacy bare string must be
treated as: range is the string, analysis is placeholder text, confidence is
Medium, and no optional statistics. -/
def normalizeLegacy (s : String) : PriceAnalysis :=
  { range := s
    analysis := legacyAnalysisText
    confidence := .Medium
    comparableListingsCount := none
    averageListingAgeDays := none
    priceDistribution := none }

/-- Helper for claims that compare a record under the two price shapes. -/
def setSuggestedPrice (sp : SuggestedPrice) (item : HistoryItem) : HistoryItem :=
  { item with listingData := { item.listingData with suggestedPrice := sp } }

/-! ## JSON documents

JavaScript objects produced by JSON.parse and consumed by JSON.stringify are
modelled as document trees; the text layer (whitespace, escaping) is the
browser JSON codec, not code of this repository, so serialisation claims are
settled at the document level. -/

/-- A JSON document. Objects are ordered field lists, as in JavaScript. -/
inductive Json where
  | null
  | bool (b : Bool)
  | num (n : Int)
  | str (s : String)
  | arr (elems : List Json)
  | obj (fields : List (String × Json))

/-- Look up the first field with the given key in an object field list. -/
def getField (fields : List (String × Json)) (key : String) : Option Json :=
  match fields with
  | [] => none
  | (k, v) :: rest => if k == key then some v else getField rest key

/-- JavaScript property access obj[key]: undefined unless the value is an
object having the field. -/
def jsField (j : Json) (key : String) : Option Json :=
  match j with
  | .obj fields => getField fields key
  | _ => none

/-- JavaScript truthiness of a JSON value. -/
def jsTruthy (j : Json) : Bool :=
  match j with
  | .null => false
  | .bool b => b
  | .num n => !(n == 0)
  | .str s => !(s == "")
  | .arr _ => true
  | .obj _ => true

/-- JavaScript (v || ''): the value when present and truthy, else the empty
string. Used for the oldKeys.gemini || '' reads in runMigration. -/
def orEmptyStr (v : Option Json) : Json :=
  match v with
  | some x => if jsTruthy x then x else .str ""
  | none => .str ""

/-! ## JSON encoding of a persisted record (JSON.stringify field order) -/

/-- Encoding of an optional image: imageFile is null when absent. -/
def encodeImage (img : Option ImageFile) : Json :=
  match img with
  | none => .null
  | some f => .obj [("base64", .str f.base64), ("mimeType", .str f.mimeType),
      ("name", .str f.name)]

/-- Encoding of the suggestedPrice field: the legacy shape is a bare string,
the structured shape an object whose optional fields are omitted when
absent (JSON.stringify drops undefined properties). -/
def encodePrice (sp : SuggestedPrice) : Json :=
  match sp with
  | .legacy s => .str s
  | .structured p => .obj
      ([("range", .str p.range), ("analysis", .str p.analysis),
        ("confidence", .str p.confidence.str)]
       ++ (match p.comparableListingsCount with
           | some n => [("comparableListingsCount", .num n)]
           | none => [])
       ++ (match p.averageListingAgeDays with
           | some n => [("averageListingAgeDays", .num n)]
           | none => [])
       ++ (match p.priceDistribution with
           | some bins => [("priceDistribution", .arr (bins.map (fun b =>
               .obj [("range", .str b.range), ("count", .num b.count)])))]
           | none => []))

/-- Encoding of the listing block; tags are omitted when absent. -/
def encodeListing (l : ListingContent) : Json :=
  .obj ([("title", .str l.title), ("description", .str l.description)]
    ++ (match l.tags with
        | some tags => [("tags", .arr (tags.map .str))]
        | none => []))

/-- Encoding of listingData. -/
def encodeListingData (l : HistoryListing) : Json :=
  .obj [("itemName", .str l.itemName),
        ("suggestedPrice", encodePrice l.suggestedPrice),
        ("listing", encodeListing l.listing)]

/-- JSON.stringify of a HistoryItem, at document level: the fields in the
creation order of handleGenerate / handleSaveListing, with customTitle
omitted when the record has none. -/
def encodeHistoryItem (item : HistoryItem) : Json :=
  .obj ([("id", .num item.id),
         ("platform", .str item.platform.str),
         ("input", .obj [("text", .str item.inputText),
                         ("image", encodeImage item.inputImage)]),
         ("listingData", encodeListingData item.listingData),
         ("timestamp", .str item.timestamp)]
    ++ (match item.customTitle with
        | some t => [("customTitle", .str t)]
        | none => []))

/-! ## Reading a parsed snapshot back into a record -/

/-- Decode a platform string. -/
def decodePlatform (j : Json) : Option Platform :=
  match j with
  | .str "Ebay" => some .Ebay
  | .str "Facebook" => some .Facebook
  | .str "Craigslist" => some .Craigslist
  | .str "X" => some .X
  | _ => none

/-- Decode a confidence string. -/
def decodeConfidence (j : Json) : Option Confidence :=
  match j with
  | .str "High" => some .High
  | .str "Medium" => some .Medium
  | .str "Low" => some .Low
  | _ => none

/-- Decode a plain string value. -/
def decodeStr (j : Json) : Option String :=
  match j with
  | .str s => some s
  | _ => none

/-- Decode a non-negative integer value. -/
def decodeNat (j : Json) : Option Nat :=
  match j with
  | .num n => if 0 ≤ n then some n.toNat else none
  | _ => none

/-- Decode every element of a JSON array. -/
def decodeList (dec : Json → Option α) : List Json → Option (List α)
  | [] => some []
  | j :: rest => do
    let x ← dec j
    let xs ← decodeList dec rest
    pure (x :: xs)

/-- Decode a list of strings. -/
def decodeStrList (j : Json) : Option (List String) :=
  match j with
  | .arr elems => decodeList decodeStr elems
  | _ => none

/-- Decode one histogram bin. -/
def decodeBin (j : Json) : Option PriceDistributionBin :=
  match j with
  | .obj _ => do
    let range ← jsField j "range" >>= decodeStr
    let count ← jsField j "count" >>= decodeNat
    pure { range := range, count := count }
  | _ => none

/-- Decode an optional field: absence is fine, a present field must decode. -/
def decodeOptField (j : Json) (key : String) (dec : Json → Option α) :
    Option (Option α) :=
  match jsField j key with
  | none => some none
  | some v => (dec v).map some

/-- Decode the suggestedPrice field in either shape. -/
def decodePrice (j : Json) : Option SuggestedPrice :=
  match j with
  | .str s => some (.legacy s)
  | .obj _ => do
    let range ← jsField j "range" >>= decodeStr
    let analysis ← jsField j "analysis" >>= decodeStr
    let confidence ← jsField j "confidence" >>= decodeConfidence
    let cnt ← decodeOptField j "comparableListingsCount" decodeNat
    let age ← decodeOptField j "averageListingAgeDays" decodeNat
    let dist ← decodeOptField j "priceDistribution" (fun v =>
      match v with
      | .arr elems => decodeList decodeBin elems
      | _ => none)
    pure (.structured
      { range := range
        analysis := analysis
        confidence := confidence
        comparableListingsCount := cnt
        averageListingAgeDays := age
        priceDistribution := dist })
  | _ => none

/-- Decode the listing block. -/
def decodeListing (j : Json) : Option ListingContent :=
  match j with
  | .obj _ => do
    let title ← jsField j "title" >>= decodeStr
    let description ← jsField j "description" >>= decodeStr
    let tags ← decodeOptField j "tags" decodeStrList
    pure { title := title, description := description, tags := tags }
  | _ => none

/-- Decode listingData. -/
def decodeListingData (j : Json) : Option HistoryListing :=
  match j with
  | .obj _ => do
    let itemName ← jsField j "itemName" >>= decodeStr
    let sp ← jsField j "suggestedPrice" >>= decodePrice
    let listing ← jsField j "listing" >>= decodeListing
    pure { itemName := itemName, suggestedPrice := sp, listing := listing }
  | _ => none

/-- Decode the optional image (stored as null when absent). -/
def decodeImage (j : Json) : Option (Option ImageFile) :=
  match j with
  | .null => some none
  | .obj _ => do
    let base64 ← jsField j "base64" >>= decodeStr
    let mimeType ← jsField j "mimeType" >>= decodeStr
    let name ← jsField j "name" >>= decodeStr
    pure (some { base64 := base64, mimeType := mimeType, name := name })
  | _ => none

/-- Reading a parsed snapshot document back into a HistoryItem record. -/
def decodeHistoryItem (j : Json) : Option HistoryItem :=
  match j with
  | .obj _ => do
    let id ← jsField j "id" >>= decodeNat
    let platform ← jsField j "platform" >>= decodePlatform
    let input ← jsField j "input"
    let text ← jsField input "text" >>= decodeStr
    let image ← jsField input "image" >>= decodeImage
    let listingData ← jsField j "listingData" >>= decodeListingData
    let timestamp ← jsField j "timestamp" >>= decodeStr
    let customTitle ← decodeOptField j "customTitle" decodeStr
    pure
      { id := id
        platform := platform
        inputText := text
        inputImage := image
        listingData := listingData
        timestamp := timestamp
        customTitle := customTitle }
  | _ => none

/-! ## store.ts: startup migration (src/store.ts:44-97)

Local storage is modelled by the four keys runMigration touches. Stored
values are kept as parsed documents: the source reads strings and runs
JSON.parse on them, so a stored value here stands for the well-formed JSON
text that parses to it, and an absent key for localStorage.getItem
returning null. -/

/-- The four localStorage slots the migration reads and writes. -/
structure Storage where
  merged : Option Json
  oldHistory : Option Json
  oldSaved : Option Json
  oldKeys : Option Json

/-- The new persisted state document built at store.ts:67-79 from the three
old records, with JavaScript defaults [] and \x7b\x7d for absent old keys. -/
def mkPersistedState (history savedListings oldKeys : Json) : Json :=
  .obj [("state", .obj
          [("history", history),
           ("savedListings", savedListings),
           ("apiKeys", .obj
             [("gemini", orEmptyStr (jsField oldKeys "gemini")),
              ("openai", orEmptyStr (jsField oldKeys "openai")),
              ("ebay", orEmptyStr (jsField oldKeys "ebay")),
              ("x", orEmptyStr (jsField oldKeys "x"))])]),
        ("version", .num 0)]

/-- runMigration (store.ts:44-94): a no-op when the merged key already
exists or when no old key exists; otherwise the three old records are read
(with defaults), combined into the new persisted state under the merged
key, and the old keys are removed. -/
def runMigration (st : Storage) : Storage :=
  if st.merged.isSome then st
  else if st.oldHistory.isNone && st.oldSaved.isNone && st.oldKeys.isNone then st
  else
    let history := st.oldHistory.getD (.arr [])
    let savedListings := st.oldSaved.getD (.arr [])
    let oldKeys := st.oldKeys.getD (.obj [])
    { merged := some (mkPersistedState history savedListings oldKeys)
      oldHistory := none
      oldSaved := none
      oldKeys := none }

/-- What the new layout holds as the history collection: state.history of
the merged record. -/
def mergedHistory (st : Storage) : Option Json :=
  st.merged.bind (fun j => jsField j "state") |>.bind (fun j => jsField j "history")

/-- What the new layout holds as the saved collection. -/
def mergedSaved (st : Storage) : Option Json :=
  st.merged.bind (fun j => jsField j "state") |>.bind (fun j => jsField j "savedListings")

/-- What the new layout holds as one provider key. -/
def mergedApiKey (st : Storage) (provider : String) : Option Json :=
  st.merged.bind (fun j => jsField j "state") |>.bind (fun j => jsField j "apiKeys")
    |>.bind (fun j => jsField j provider)

/-! ## Export service (src/components/Header.tsx export helpers) -/

/-- A character matched by the regex class [a-z0-9] with the i flag, by
code point: a-z, A-Z or 0-9. -/
def isAlnumCI (c : Char) : Bool :=
  (97 ≤ c.toNat && c.toNat ≤ 122) || (65 ≤ c.toNat && c.toNat ≤ 90)
    || (48 ≤ c.toNat && c.toNat ≤ 57)

/-- title.replace(/[^a-z0-9]/gi, '_'): every character outside the class is
replaced by one underscore. -/
def replaceNonAlnum (s : String) : String :=
  ⟨s.data.map (fun c => if isAlnumCI c then c else '_')⟩

/-- The display title of a record: customTitle when present and non-empty
(JavaScript ||), otherwise the identified item name. -/
def displayTitle (item : HistoryItem) : String :=
  match item.customTitle with
  | some t => if t == "" then item.listingData.itemName else t
  | none => item.listingData.itemName

/-- getSanitizedTitle (Header.tsx:113-115): replace characters outside
[a-z0-9] (case-insensitive) by underscores, then lowercase. -/
def getSanitizedTitle (item : HistoryItem) : String :=
  toLowerStr (replaceNonAlnum (displayTitle item))

/-- The file-producing export formats of the export modal. -/
inductive ExportFormat where
  | txt
  | json
  | csv
  | doc
  | sql
  | pdf
deriving DecidableEq

/-- The file extension each export appends to the sanitized title. -/
def ExportFormat.extension : ExportFormat → String
  | .txt => "txt"
  | .json => "json"
  | .csv => "csv"
  | .doc => "doc"
  | .sql => "sql"
  | .pdf => "pdf"

/-- The suggested filename every export passes to the download helper. -/
def exportFilename (fmt : ExportFormat) (item : HistoryItem) : String :=
  getSanitizedTitle item ++ "." ++ fmt.extension

/-- The priceInfo read in each textual export (Header.tsx:119 etc.):
typeof suggestedPrice === 'string' ? suggestedPrice : suggestedPrice.range. -/
def exportPriceInfo (sp : SuggestedPrice) : String :=
  match sp with
  | .legacy s => s
  | .structured p => p.range

/-! ### The HTML-tag removal of the TXT export -/

/-- Scan for the first '>' in the rest of a candidate tag; some tail means
a '>' was found and tail is everything after it. -/
def tagEndAux : List Char → Option (List Char)
  | [] => none
  | c :: rest => if c == '>' then some rest else tagEndAux rest

/-- Match the regex tail [^>]+> against the characters following a '<':
at least one non-'>' character, then the closing '>'. Returns the
characters after the matched tag. -/
def tagEnd : List Char → Option (List Char)
  | [] => none
  | c :: rest => if c == '>' then none else tagEndAux rest

/-- tagEndAux only ever returns a strict suffix. -/
theorem tagEndAux_length {cs tail : List Char} (h : tagEndAux cs = some tail) :
    tail.length < cs.length := by
  induction cs with
  | nil => simp [tagEndAux] at h
  | cons c rest ih =>
    by_cases hc : c == '>'
    · simp [tagEndAux, hc] at h
      subst h
      simp
    · simp [tagEndAux, hc] at h
      exact Nat.lt_trans (ih h) (by simp)

/-- tagEnd only ever returns a strict suffix. -/
theorem tagEnd_length {cs tail : List Char} (h : tagEnd cs = some tail) :
    tail.length < cs.length := by
  cases cs with
  | nil => simp [tagEnd] at h
  | cons c rest =>
    by_cases hc : c == '>'
    · simp [tagEnd, hc] at h
    · simp [tagEnd, hc] at h
      exact Nat.lt_trans (tagEndAux_length h) (by simp)

/-- description.replace(/<[^>]+>/g, ''): repeatedly delete the leftmost
match. At a '<' with a matching tag the whole tag is dropped; otherwise the
character is kept and scanning continues. -/
def stripTags (cs : List Char) : List Char :=
  match cs with
  | [] => []
  | c :: rest =>
    if c == '<' then
      match h : tagEnd rest with
      | some tail => stripTags tail
      | none => c :: stripTags rest
    else
      c :: stripTags rest
termination_by cs.length
decreasing_by
  · simp
    exact Nat.lt_trans (tagEnd_length h) (by simp)
  · simp
  · simp

/-- The TXT export strips HTML tags from the description with this. -/
def stripHtml (s : String) : String :=
  ⟨stripTags s.data⟩

/-- Whether a character list still contains a substring matching the tag
regex <[^>]+>. -/
def hasTag (cs : List Char) : Bool :=
  match cs with
  | [] => false
  | c :: rest =>
    (if c == '<' then (tagEnd rest).isSome else false) || hasTag rest

/-! ### Export contents (Header.tsx:117-189) -/

/-- exportAsTxt content (Header.tsx:117-130): plain-text template; HTML tags
are stripped from the description only; the tags line appears whenever the
record carries a tags field. -/
def exportAsTxtContent (item : HistoryItem) : String :=
  let l := item.listingData
  let priceInfo := exportPriceInfo l.suggestedPrice
  "Item: " ++ l.itemName ++ "\n"
    ++ "Platform: " ++ item.platform.str ++ "\n"
    ++ "Suggested Price: " ++ priceInfo ++ "\n\n"
    ++ "--- Listing ---\n"
    ++ "Title: " ++ l.listing.title ++ "\n\n"
    ++ "Description:\n" ++ stripHtml l.listing.description ++ "\n\n"
    ++ (match l.listing.tags with
        | some tags => "Tags: " ++ String.intercalate ", " tags ++ "\n"
        | none => "")

/-- CSV quoting of one value: internal double quotes doubled. -/
def csvQuote (s : String) : String :=
  "\"" ++ ⟨s.data.flatMap (fun c => if c == '"' then ['"', '"'] else [c])⟩ ++ "\""

/-- exportAsCsv content (Header.tsx:136-150). The platform and price values
are quoted without escaping in the source. -/
def exportAsCsvContent (item : HistoryItem) : String :=
  let l := item.listingData
  let priceInfo := exportPriceInfo l.suggestedPrice
  "itemName,platform,price,title,description,tags\n"
    ++ String.intercalate ","
        [csvQuote l.itemName,
         "\"" ++ item.platform.str ++ "\"",
         "\"" ++ priceInfo ++ "\"",
         csvQuote l.listing.title,
         csvQuote l.listing.description,
         "\"" ++ String.intercalate ", " (l.listing.tags.getD []) ++ "\""]

/-- exportAsDoc content (Header.tsx:152-169), with the fixed markup framing
abbreviated to the parts that vary with the record. -/
def exportAsDocContent (item : HistoryItem) : String :=
  let l := item.listingData
  let priceInfo := exportPriceInfo l.suggestedPrice
  "<h1>" ++ l.itemName ++ "</h1>"
    ++ "<p><strong>Platform:</strong> " ++ item.platform.str ++ "</p>"
    ++ "<p><strong>Suggested Price:</strong> " ++ priceInfo ++ "</p>"
    ++ "<h2>" ++ l.listing.title ++ "</h2>"
    ++ "<div>" ++ l.listing.description ++ "</div>"
    ++ (match l.listing.tags with
        | some tags => "<p><strong>Tags:</strong> " ++ String.intercalate ", " tags ++ "</p>"
        | none => "")

/-- escapeSql (Header.tsx:174): double every single quote. -/
def escapeSql (s : String) : String :=
  ⟨s.data.flatMap (fun c => if c == '\x27' then ['\x27', '\x27'] else [c])⟩

/-- exportAsSql content (Header.tsx:171-189): the VALUES tuple of the
generated INSERT statement. -/
def exportAsSqlContent (item : HistoryItem) : String :=
  let l := item.listingData
  let priceInfo := exportPriceInfo l.suggestedPrice
  String.intercalate ", "
    [escapeSql l.itemName,
     escapeSql item.platform.str,
     escapeSql priceInfo,
     escapeSql l.listing.title,
     escapeSql l.listing.description,
     escapeSql (String.intercalate "," (l.listing.tags.getD [])),
     item.timestamp]

/-- exportAsJson content (Header.tsx:132-134): the serialized snapshot of
the whole record, at document level. -/
def exportAsJsonContent (item : HistoryItem) : Json :=
  encodeHistoryItem item

/-! ## Shared sample data for concrete witnesses -/

/-- A small concrete listing used by witnesses. -/
def sampleListing : HistoryListing :=
  { itemName := "Desk Lamp"
    suggestedPrice := .legacy "$10 - $15"
    listing := { title := "Vintage Desk Lamp", description := "works fine", tags := none } }

/-- A small concrete record family used by witnesses. -/
def sampleItem (n : Nat) : HistoryItem :=
  { id := n
    platform := .Ebay
    inputText := "old desk lamp"
    inputImage := none
    listingData := sampleListing
    timestamp := "2024-01-01T00:00:00.000Z"
    customTitle := none }

/-! ## Claims -/

deriving instance DecidableEq for Except

/-- A parsed response that is valid JSON but has no listing field. -/
def noListingResponse : ParsedResponse :=
  { itemName := some "Jacket", suggestedPrice := none, listing := none }

/-- A parsed response whose listing.title is the empty string. -/
def emptyTitleResponse : ParsedResponse :=
  { itemName := some "Jacket"
    suggestedPrice := none
    listing := some { title := some "", description := some "d", tags := none } }

/-- Claim C1. The claim states that a response that parses as JSON but lacks
listing or has an empty listing.title surfaces with a malformed-response
message distinct from the generic try-again-later fallback. In the code the
shape-check throw at geminiService.ts:179 sits inside the try block, so the
catch at line 184 reclassifies its message, no provider substring matches,
and the caller receives exactly the generic fallback message - the same
text an unknown provider failure produces. This theorem evaluates the
embedded generateListing at the failing inputs. -/
theorem malformedResponseFallsToGenericMessage :
    (generateListing .Ebay "red leather jacket" "key123" none
        (.responded (some noListingResponse))).2 = .error fallbackMsg
    ∧ (generateListing .Ebay "red leather jacket" "key123" none
        (.responded (some emptyTitleResponse))).2 = .error fallbackMsg
    ∧ (generateListing .Ebay "red leather jacket" "key123" none
        (.threw "totally unexpected provider failure")).2 = .error fallbackMsg := by
  refine ⟨?_, ?_, ?_⟩ <;> decide

/-- Claim C2: with an empty generation key, generateListing fails with the
MissingCredential message and the provider call is never reached (first
component false), for every marketplace, text, image and would-be provider
outcome. -/
theorem emptyKeyFailsBeforeNetworkCall (platform : Platform) (text : String)
    (image : Option ImageFile) (outcome : ProviderOutcome) :
    generateListing platform text "" image outcome = (false, .error missingKeyMsg) :=
  rfl

/-- Claim C3: after adding an item the history holds at most 50 entries, and
when it already held exactly 50 the result keeps the new item plus all but
the last stored entry - the oldest by insertion order, since insertion
prepends. -/
theorem historyCappedAtFiftyFifoEviction (item : HistoryItem)
    (history : List HistoryItem) :
    (addHistoryItem item history).length ≤ 50
    ∧ (history.length = 50 →
        addHistoryItem item history = item :: history.dropLast) := by
  constructor
  · simp [addHistoryItem, List.length_take]
  · intro h50
    show (item :: history).take 50 = item :: history.dropLast
    rw [List.dropLast_eq_take, h50]
    rw [show (50 : Nat) = 49 + 1 from rfl, List.take_succ_cons]

/-- Concrete instance of claim C3 at a history of exactly 50 entries. -/
theorem historyCappedAtFiftyFifoEviction_witness :
    (addHistoryItem (sampleItem 51) ((List.range 50).map sampleItem)).length ≤ 50
    ∧ addHistoryItem (sampleItem 51) ((List.range 50).map sampleItem)
      = sampleItem 51 :: ((List.range 50).map sampleItem).dropLast := by
  refine ⟨(historyCappedAtFiftyFifoEviction _ _).1,
    (historyCappedAtFiftyFifoEviction _ _).2 ?_⟩
  simp

/-- Claim C4: the record written back by the edit dialog agrees with the
original on id, platform, input, timestamp, itemName, suggestedPrice and
tags; only customTitle, listing.title and listing.description are replaced
by the form fields. -/
theorem editChangesOnlyTitleDescriptionCustomTitle (item : HistoryItem)
    (ct t d : String) :
    (editHandleSave item ct t d).id = item.id
    ∧ (editHandleSave item ct t d).platform = item.platform
    ∧ (editHandleSave item ct t d).inputText = item.inputText
    ∧ (editHandleSave item ct t d).inputImage = item.inputImage
    ∧ (editHandleSave item ct t d).timestamp = item.timestamp
    ∧ (editHandleSave item ct t d).listingData.itemName = item.listingData.itemName
    ∧ (editHandleSave item ct t d).listingData.suggestedPrice
      = item.listingData.suggestedPrice
    ∧ (editHandleSave item ct t d).listingData.listing.tags
      = item.listingData.listing.tags := by
  exact ⟨rfl, rfl, rfl, rfl, rfl, rfl, rfl, rfl⟩

/-- Claim C5, amended part: the price display and every export that reads
the price content (TXT, CSV, DOC, SQL) treat a legacy bare-string price s
exactly as the structured object normalizeLegacy s, and the snapshot
encoding keeps the bare string verbatim. All consumers are total functions,
so none crashes on the bare-string shape. -/
theorem legacyPriceTreatedAsStructured (s : String) (item : HistoryItem) :
    previewPriceInfo (.legacy s) = previewPriceInfo (.structured (normalizeLegacy s))
    ∧ exportPriceInfo (.legacy s) = exportPriceInfo (.structured (normalizeLegacy s))
    ∧ exportAsTxtContent (setSuggestedPrice (.legacy s) item)
      = exportAsTxtContent (setSuggestedPrice (.structured (normalizeLegacy s)) item)
    ∧ exportAsCsvContent (setSuggestedPrice (.legacy s) item)
      = exportAsCsvContent (setSuggestedPrice (.structured (normalizeLegacy s)) item)
    ∧ exportAsDocContent (setSuggestedPrice (.legacy s) item)
      = exportAsDocContent (setSuggestedPrice (.structured (normalizeLegacy s)) item)
    ∧ exportAsSqlContent (setSuggestedPrice (.legacy s) item)
      = exportAsSqlContent (setSuggestedPrice (.structured (normalizeLegacy s)) item)
    ∧ encodePrice (.legacy s) = .str s := by
  exact ⟨rfl, rfl, rfl, rfl, rfl, rfl, rfl⟩

/-- Claim C5, counterexample to the claim as stated: the serialized-snapshot
(JSON) export is also an export, but its byte content on a legacy
bare-string price differs from its content on the structured object the
claim says the string must be treated as: one serializes a string, the
other an object. -/
theorem legacyPriceJsonExportDiffers :
    exportAsJsonContent (setSuggestedPrice (.legacy "$10 - $15") (sampleItem 1))
      ≠ exportAsJsonContent
          (setSuggestedPrice (.structured (normalizeLegacy "$10 - $15")) (sampleItem 1)) := by
  simp [exportAsJsonContent, encodeHistoryItem, encodeListingData, encodePrice,
    setSuggestedPrice, sampleItem, sampleListing, normalizeLegacy]

/-- Claim C6: typing new free text while a history or saved entry is
selected moves the view to Composing - both selections cleared - and the
text input holds exactly the newly typed text. -/
theorem editingTextClearsSelectionKeepsText (s : AppViewState) (t : String)
    (h : s.activeHistoryId.isSome = true ∨ s.activeSavedId.isSome = true) :
    isComposing (onTextChange t s) = true
    ∧ (onTextChange t s).activeHistoryId = none
    ∧ (onTextChange t s).activeSavedId = none
    ∧ (onTextChange t s).textInput = t := by
  exact ⟨rfl, rfl, rfl, rfl⟩

/-- A view state with an active history selection, for the C6 witness. -/
def sampleViewingState : AppViewState :=
  { activeHistoryId := some 7
    activeSavedId := none
    selectedPlatform := .Ebay
    textInput := "old desk lamp"
    imageFile := none
    isGenerationComplete := true
    hasPriceHistory := true }

/-- Concrete instance of claim C6. -/
theorem editingTextClearsSelectionKeepsText_witness :
    sampleViewingState.activeHistoryId.isSome = true
    ∧ (isComposing (onTextChange "new text" sampleViewingState) = true
      ∧ (onTextChange "new text" sampleViewingState).activeHistoryId = none
      ∧ (onTextChange "new text" sampleViewingState).activeSavedId = none
      ∧ (onTextChange "new text" sampleViewingState).textInput = "new text") :=
  ⟨rfl, editingTextClearsSelectionKeepsText sampleViewingState "new text" (Or.inl rfl)⟩

/-- The merged key already exists: runMigration returns the storage
untouched (store.ts:46-48). -/
theorem runMigration_merged_noop (st : Storage) (h : st.merged.isSome = true) :
    runMigration st = st := by
  unfold runMigration
  simp [h]

/-- With no merged key and at least one old key, runMigration writes the
combined persisted state and clears the old keys. -/
theorem runMigration_migrates (st : Storage) (hm : st.merged = none)
    (hold : ¬(st.oldHistory.isNone && st.oldSaved.isNone && st.oldKeys.isNone) = true) :
    runMigration st =
      { merged := some (mkPersistedState (st.oldHistory.getD (.arr []))
          (st.oldSaved.getD (.arr [])) (st.oldKeys.getD (.obj [])))
        oldHistory := none
        oldSaved := none
        oldKeys := none } := by
  unfold runMigration
  simp [hm, hold]

/-- Claim C7: the startup migration is a no-op when the merged key exists,
is idempotent in every state, and otherwise moves the whole old layout -
history, saved listings and each provider key - into the merged layout. -/
theorem migrationIdempotentAndLossless :
    (∀ st : Storage, st.merged.isSome = true → runMigration st = st)
    ∧ (∀ st : Storage, runMigration (runMigration st) = runMigration st)
    ∧ (∀ st : Storage, st.merged = none →
        (st.oldHistory.isSome = true ∨ st.oldSaved.isSome = true
          ∨ st.oldKeys.isSome = true) →
        mergedHistory (runMigration st) = some (st.oldHistory.getD (.arr []))
        ∧ mergedSaved (runMigration st) = some (st.oldSaved.getD (.arr []))
        ∧ mergedApiKey (runMigration st) "gemini"
          = some (orEmptyStr (jsField (st.oldKeys.getD (.obj [])) "gemini"))
        ∧ mergedApiKey (runMigration st) "openai"
          = some (orEmptyStr (jsField (st.oldKeys.getD (.obj [])) "openai"))
        ∧ mergedApiKey (runMigration st) "ebay"
          = some (orEmptyStr (jsField (st.oldKeys.getD (.obj [])) "ebay"))
        ∧ mergedApiKey (runMigration st) "x"
          = some (orEmptyStr (jsField (st.oldKeys.getD (.obj [])) "x"))) := by
  have hnoop : ∀ st : Storage, st.merged.isSome = true → runMigration st = st :=
    runMigration_merged_noop
  refine ⟨hnoop, ?_, ?_⟩
  · intro st
    by_cases hm : st.merged.isSome = true
    · simp only [hnoop st hm]
    · by_cases hold : (st.oldHistory.isNone && st.oldSaved.isNone
          && st.oldKeys.isNone) = true
      · have h1 : runMigration st = st := by
          unfold runMigration
          simp [hm, hold]
        simp only [h1]
      · have hm' : st.merged = none := by
          cases hmm : st.merged with
          | none => rfl
          | some v => rw [hmm] at hm; simp at hm
        rw [runMigration_migrates st hm' hold]
        apply hnoop
        rfl
  · intro st hm hsome
    have hold : ¬(st.oldHistory.isNone && st.oldSaved.isNone
        && st.oldKeys.isNone) = true := by
      intro hc
      rcases hsome with h | h | h <;> simp_all [Bool.and_eq_true]
    rw [runMigration_migrates st hm hold]
    exact ⟨rfl, rfl, rfl, rfl, rfl, rfl⟩

/-- An old-layout storage with a history record and a keys record. -/
def sampleOldStorage : Storage :=
  { merged := none
    oldHistory := some (.arr [.str "h0"])
    oldSaved := none
    oldKeys := some (.obj [("gemini", .str "gk"), ("ebay", .str "")]) }

/-- Concrete instance of claim C7 on an old separate-record layout. -/
theorem migrationIdempotentAndLossless_witness :
    sampleOldStorage.merged = none
    ∧ sampleOldStorage.oldHistory.isSome = true
    ∧ mergedHistory (runMigration sampleOldStorage) = some (.arr [.str "h0"])
    ∧ mergedSaved (runMigration sampleOldStorage) = some (.arr [])
    ∧ mergedApiKey (runMigration sampleOldStorage) "gemini" = some (.str "gk")
    ∧ mergedApiKey (runMigration sampleOldStorage) "openai" = some (.str "")
    ∧ mergedApiKey (runMigration sampleOldStorage) "ebay" = some (.str "")
    ∧ mergedApiKey (runMigration sampleOldStorage) "x" = some (.str "")
    ∧ runMigration (runMigration sampleOldStorage) = runMigration sampleOldStorage := by
  have h := migrationIdempotentAndLossless.2.2 sampleOldStorage rfl (Or.inl rfl)
  exact ⟨rfl, rfl, h.1, h.2.1, h.2.2.1, h.2.2.2.1, h.2.2.2.2.1, h.2.2.2.2.2,
    migrationIdempotentAndLossless.2.1 sampleOldStorage⟩

/-- A character matched by [a-z0-9] without the i flag, by code point. -/
def isLowerAlnum (c : Char) : Bool :=
  (97 ≤ c.toNat && c.toNat ≤ 122) || (48 ≤ c.toNat && c.toNat ≤ 57)

/-- The sanitized title as the spec words it: display title lowercased
first, then characters outside [a-z0-9] replaced by underscores. -/
def specSanitizedTitle (item : HistoryItem) : String :=
  ⟨(toLowerStr (displayTitle item)).data.map
    (fun c => if isLowerAlnum c then c else '_')⟩

/-- Lowercasing an ASCII uppercase letter adds 32 to its code point. -/
theorem toLower_toNat_of_upper {c : Char} (h : 65 ≤ c.toNat ∧ c.toNat ≤ 90) :
    (Char.toLower c).toNat = c.toNat + 32 := by
  have hval : (c.toNat + 32).isValidChar := by
    left
    omega
  simp only [Char.toLower, ge_iff_le]
  rw [if_pos ⟨h.1, h.2⟩]
  simp only [Char.ofNat, dif_pos hval]
  rfl

/-- Char.toLower fixes everything outside the uppercase range. -/
theorem toLower_eq_self {c : Char} (h : ¬(65 ≤ c.toNat ∧ c.toNat ≤ 90)) :
    Char.toLower c = c := by
  simp only [Char.toLower, ge_iff_le]
  rw [if_neg h]

/-- Replacing outside [a-z0-9] case-insensitively and then lowercasing is
the same as lowercasing first and then replacing outside lowercase
[a-z0-9]. -/
theorem sanitizeLower_comm (c : Char) :
    Char.toLower (if isAlnumCI c then c else '_')
      = if isLowerAlnum (Char.toLower c) then Char.toLower c else '_' := by
  by_cases hu : 65 ≤ c.toNat ∧ c.toNat ≤ 90
  · have hA : isAlnumCI c = true := by
      simp only [isAlnumCI, Bool.or_eq_true, Bool.and_eq_true, decide_eq_true_eq]
      omega
    have htl := toLower_toNat_of_upper hu
    have hL : isLowerAlnum (Char.toLower c) = true := by
      simp only [isLowerAlnum, Bool.or_eq_true, Bool.and_eq_true, decide_eq_true_eq]
      omega
    rw [if_pos hA, if_pos hL]
  · have hself : Char.toLower c = c := toLower_eq_self hu
    by_cases hA : isAlnumCI c = true
    · have hL : isLowerAlnum (Char.toLower c) = true := by
        rw [hself]
        simp only [isAlnumCI, Bool.or_eq_true, Bool.and_eq_true,
          decide_eq_true_eq] at hA
        simp only [isLowerAlnum, Bool.or_eq_true, Bool.and_eq_true,
          decide_eq_true_eq]
        omega
      rw [if_pos hA, if_pos hL, hself]
    · have hL : ¬isLowerAlnum (Char.toLower c) = true := by
        rw [hself]
        simp only [isAlnumCI, Bool.or_eq_true, Bool.and_eq_true,
          decide_eq_true_eq] at hA
        simp only [isLowerAlnum, Bool.or_eq_true, Bool.and_eq_true,
          decide_eq_true_eq]
        omega
      rw [if_neg (by simp [hA]), if_neg hL]
      rfl

/-- Claim C8: for every record and every export format, the suggested
filename is the display title (customTitle when present, else itemName)
lowercased with every character outside [a-z0-9] replaced by an
underscore, followed by a dot and the format extension. -/
theorem exportFilenameFromDisplayTitle (item : HistoryItem) (fmt : ExportFormat) :
    exportFilename fmt item = specSanitizedTitle item ++ "." ++ fmt.extension := by
  suffices h : getSanitizedTitle item = specSanitizedTitle item by
    simp [exportFilename, h]
  show toLowerStr (replaceNonAlnum (displayTitle item)) = specSanitizedTitle item
  simp only [toLowerStr, replaceNonAlnum, specSanitizedTitle]
  congr 1
  rw [List.map_map, List.map_map]
  have hfun : (Char.toLower ∘ fun c => if isAlnumCI c then c else '_')
      = (fun c => if isLowerAlnum (Char.toLower c) then Char.toLower c else '_') :=
    funext fun c => sanitizeLower_comm c
  rw [hfun]
  rfl

/-- Decoding a serialized natural number. -/
theorem decodeNat_num (n : Nat) : decodeNat (.num n) = some n := by
  simp [decodeNat]

/-- Round trip of one histogram bin. -/
theorem decodeBin_encode (b : PriceDistributionBin) :
    decodeBin (.obj [("range", .str b.range), ("count", .num b.count)]) = some b := by
  simp [decodeBin, jsField, getField, decodeStr, decodeNat_num]

/-- Round trip of a histogram. -/
theorem decodeList_bins (bins : List PriceDistributionBin) :
    decodeList decodeBin
      (bins.map (fun b => Json.obj [("range", .str b.range), ("count", .num b.count)]))
      = some bins := by
  induction bins with
  | nil => rfl
  | cons b rest ih =>
    simp [decodeList, decodeBin_encode, ih]

/-- Round trip of a string array. -/
theorem decodeList_strs (tags : List String) :
    decodeList decodeStr (tags.map Json.str) = some tags := by
  induction tags with
  | nil => rfl
  | cons t rest ih =>
    simp [decodeList, decodeStr, ih]

/-- Round trip of the suggestedPrice field. -/
theorem decodePrice_encodePrice (sp : SuggestedPrice) :
    decodePrice (encodePrice sp) = some sp := by
  cases sp with
  | legacy s => rfl
  | structured p =>
    rcases p with ⟨r, a, conf, cnt, age, dist⟩
    cases conf <;> cases cnt <;> cases age <;> cases dist <;>
      simp [encodePrice, decodePrice, jsField, getField, decodeStr,
        decodeConfidence, decodeOptField, decodeNat_num, decodeList_bins,
        Confidence.str]

/-- Round trip of the listing block. -/
theorem decodeListing_encodeListing (l : ListingContent) :
    decodeListing (encodeListing l) = some l := by
  rcases l with ⟨t, d, tags⟩
  cases tags <;>
    simp [encodeListing, decodeListing, jsField, getField, decodeStr,
      decodeOptField, decodeStrList, decodeList_strs]

/-- Round trip of listingData. -/
theorem decodeListingData_encode (l : HistoryListing) :
    decodeListingData (encodeListingData l) = some l := by
  rcases l with ⟨n, sp, listing⟩
  have h1 := decodePrice_encodePrice sp
  have h2 := decodeListing_encodeListing listing
  simp [encodeListingData, decodeListingData, jsField, getField, decodeStr,
    encodePrice, encodeListing] at *
  cases sp <;> simp_all [encodePrice, encodeListing]

/-- Round trip of the optional input image. -/
theorem decodeImage_encodeImage (img : Option ImageFile) :
    decodeImage (encodeImage img) = some img := by
  cases img with
  | none => rfl
  | some f =>
    simp [encodeImage, decodeImage, jsField, getField, decodeStr]

/-- Round trip of the platform enum. -/
theorem decodePlatform_str (p : Platform) :
    decodePlatform (.str p.str) = some p := by
  cases p <;> rfl

/-- Claim C9: serializing a record to the snapshot document and reading it
back yields the record unchanged, for every record. -/
theorem jsonSnapshotRoundTrip (item : HistoryItem) :
    decodeHistoryItem (exportAsJsonContent item) = some item := by
  rcases item with ⟨id, platform, text, image, listingData, timestamp, customTitle⟩
  have h1 := decodeListingData_encode listingData
  have h2 := decodeImage_encodeImage image
  have h3 := decodePlatform_str platform
  cases customTitle <;>
    simp [exportAsJsonContent, encodeHistoryItem, decodeHistoryItem, jsField,
      getField, decodeStr, decodeNat_num, decodeOptField, h1, h2, h3]

/-- Unfolding stripTags on the empty list. -/
theorem stripTags_nil : stripTags [] = [] := by
  rw [stripTags]

/-- Unfolding stripTags at a matched tag. -/
theorem stripTags_cons_lt_some {rest tail : List Char} (h : tagEnd rest = some tail) :
    stripTags ('<' :: rest) = stripTags tail := by
  rw [stripTags]
  simp only [if_pos (by rfl : ('<' == '<') = true)]
  split
  · rename_i tail2 heq
    rw [h] at heq
    injection heq with he
    rw [he]
  · rename_i heq
    rw [h] at heq
    cases heq

/-- Unfolding stripTags at a '<' with no matching tag. -/
theorem stripTags_cons_lt_none {rest : List Char} (h : tagEnd rest = none) :
    stripTags ('<' :: rest) = '<' :: stripTags rest := by
  rw [stripTags]
  simp only [if_pos (by rfl : ('<' == '<') = true)]
  split
  · rename_i tail heq
    rw [h] at heq
    cases heq
  · rfl

/-- Unfolding stripTags at an ordinary character. -/
theorem stripTags_cons_ne {c : Char} {rest : List Char} (h : ¬c = '<') :
    stripTags (c :: rest) = c :: stripTags rest := by
  rw [stripTags]
  simp [h]

/-- tagEndAux finds nothing exactly when the list has no '>'. -/
theorem tagEndAux_none_iff (l : List Char) : tagEndAux l = none ↔ '>' ∉ l := by
  induction l with
  | nil => simp [tagEndAux]
  | cons c rest ih =>
    by_cases hc : c = '>'
    · subst hc
      simp [tagEndAux]
    · simp [tagEndAux, hc, ih]
      exact fun _ hgc => hc hgc.symm

/-- A list without '>' has no tag end. -/
theorem tagEnd_none_of_not_mem {l : List Char} (h : '>' ∉ l) : tagEnd l = none := by
  cases l with
  | nil => rfl
  | cons c rest =>
    have hrest : '>' ∉ rest := fun hm => h (List.mem_cons_of_mem _ hm)
    simp only [tagEnd]
    split
    · rfl
    · exact (tagEndAux_none_iff rest).mpr hrest

/-- A list without '>' is left unchanged by stripTags. -/
theorem stripTags_of_not_mem_gt {l : List Char} (h : '>' ∉ l) : stripTags l = l := by
  induction l with
  | nil => exact stripTags_nil
  | cons c rest ih =>
    have hrest : '>' ∉ rest := fun hm => h (List.mem_cons_of_mem _ hm)
    by_cases hc : c = '<'
    · subst hc
      rw [stripTags_cons_lt_none (tagEnd_none_of_not_mem hrest), ih hrest]
    · rw [stripTags_cons_ne hc, ih hrest]

/-- Fuel-indexed form of the no-tags-left property of stripTags. -/
theorem hasTag_stripTags_aux :
    ∀ n (cs : List Char), cs.length ≤ n → hasTag (stripTags cs) = false := by
  intro n
  induction n with
  | zero =>
    intro cs h
    have hnil : cs = [] := List.eq_nil_of_length_eq_zero (Nat.le_zero.mp h)
    subst hnil
    rw [stripTags_nil]
    rfl
  | succ n ih =>
    intro cs hlen
    cases cs with
    | nil =>
      rw [stripTags_nil]
      rfl
    | cons c rest =>
      simp only [List.length_cons, Nat.add_le_add_iff_right] at hlen
      by_cases hc : c = '<'
      · subst hc
        cases htE : tagEnd rest with
        | some tail =>
          rw [stripTags_cons_lt_some htE]
          exact ih tail (by have := tagEnd_length htE; omega)
        | none =>
          rw [stripTags_cons_lt_none htE]
          have hrest : hasTag (stripTags rest) = false := ih rest hlen
          have hte : tagEnd (stripTags rest) = none := by
            cases rest with
            | nil =>
              rw [stripTags_nil]
              rfl
            | cons c' r =>
              by_cases hc' : c' = '>'
              · subst hc'
                rw [stripTags_cons_ne (by decide)]
                rfl
              · have hr : '>' ∉ r := by
                  rw [show tagEnd (c' :: r) = tagEndAux r by simp [tagEnd, hc']] at htE
                  exact (tagEndAux_none_iff r).mp htE
                have hmem : '>' ∉ c' :: r := by
                  intro hm
                  rcases List.mem_cons.mp hm with h1 | h1
                  · exact hc' h1.symm
                  · exact hr h1
                rw [stripTags_of_not_mem_gt hmem]
                exact htE
          simp [hasTag, hte, hrest]
      · rw [stripTags_cons_ne hc]
        have hrest := ih rest hlen
        simp [hasTag, hc, hrest]

/-- No substring matching the tag regex survives stripTags. -/
theorem hasTag_stripTags (cs : List Char) : hasTag (stripTags cs) = false :=
  hasTag_stripTags_aux cs.length cs le_rfl

/-- A tag-free list is left unchanged by stripTags. -/
theorem stripTags_of_not_hasTag {l : List Char} (h : hasTag l = false) :
    stripTags l = l := by
  induction l with
  | nil => exact stripTags_nil
  | cons c rest ih =>
    rw [hasTag] at h
    simp only [Bool.or_eq_false_iff] at h
    obtain ⟨h1, h2⟩ := h
    by_cases hc : c = '<'
    · subst hc
      simp only [if_pos (by rfl : ('<' == '<') = true)] at h1
      have hte : tagEnd rest = none := by
        cases hx : tagEnd rest with
        | none => rfl
        | some tail => rw [hx] at h1; simp at h1
      rw [stripTags_cons_lt_none hte, ih h2]
    · rw [stripTags_cons_ne hc, ih h2]

/-- Claim C10: the TXT export emits the item name, platform, price range,
title and tags verbatim in its template, while the description is written
through stripHtml; stripHtml leaves no substring of the tag form behind,
and on tag-free text it changes nothing. -/
theorem txtExportStripsHtmlKeepsRestVerbatim (item : HistoryItem) (s : String) :
    exportAsTxtContent item
      = "Item: " ++ item.listingData.itemName ++ "\n"
        ++ "Platform: " ++ item.platform.str ++ "\n"
        ++ "Suggested Price: " ++ exportPriceInfo item.listingData.suggestedPrice ++ "\n\n"
        ++ "--- Listing ---\n"
        ++ "Title: " ++ item.listingData.listing.title ++ "\n\n"
        ++ "Description:\n" ++ stripHtml item.listingData.listing.description ++ "\n\n"
        ++ (match item.listingData.listing.tags with
            | some tags => "Tags: " ++ String.intercalate ", " tags ++ "\n"
            | none => "")
    ∧ hasTag (stripHtml s).data = false
    ∧ (hasTag s.data = false → stripHtml s = s) := by
  refine ⟨rfl, hasTag_stripTags _, fun h => ?_⟩
  show (⟨stripTags s.data⟩ : String) = s
  rw [stripTags_of_not_hasTag h]

/-- Concrete instance of claim C10: a tagged description is cleaned, a
tag-free string is untouched. -/
theorem txtExportStripsHtml_witness :
    hasTag ("plain text, no markup").data = false
    ∧ stripHtml "plain text, no markup" = "plain text, no markup"
    ∧ hasTag (stripHtml "<p>Nice <b>lamp</b></p>").data = false := by
  refine ⟨by decide, ?_, ?_⟩
  · exact (txtExportStripsHtmlKeepsRestVerbatim (sampleItem 0)
      "plain text, no markup").2.2 (by decide)
  · exact (txtExportStripsHtmlKeepsRestVerbatim (sampleItem 0)
      "<p>Nice <b>lamp</b></p>").2.1
